import Mathlib

/-!
Verification of the parameter-descriptor core of deno_doc (src/params.rs).

The Rust module converts swc binding-pattern AST nodes into a serializable
`ParamDef` tree and renders that tree as a human-readable signature string.
This file gives a shallow embedding of that module: the AST input types, the
descriptor tree, the conversion functions, the renderer, and the tagged-union
document (serde) form, with one theorem per claim about them.

Modelling conventions:
  * A Rust panic (the catch-all arm of `pat_to_param_def`) is modelled by
    returning `none`; a returned value is `some`.
  * `TsTypeDef` (from ts_type.rs, an opaque collaborator of this module) is
    modelled by its rendered text, a `String`; the collaborator
    `ts_type_ann_to_def` is therefore the identity on that text.
  * Default-value and computed-key expressions are carried in the AST as their
    source text (`String`); the conversion never reads that text except for
    presence, which is exactly what the claims are about.
  * Rust f64 / BigInt literal values in `PropName` are carried as the host
    formatted decimal text, since float formatting is outside the model and no
    claim depends on it.
-/

/-- A source span: half-open byte range into the source text.  Models
`deno_ast::swc::common::Span` as used by `span_text`. -/
structure Span where
  lo : Nat
  hi : Nat
deriving Repr, DecidableEq

/-- A parsed source handle.  Models `deno_ast::ParsedSource` restricted to the
single capability params.rs uses: fetching the original source substring for a
span (`s.source().span_text(&span)`). -/
structure ParsedSource where
  source : String
deriving Repr, DecidableEq

/-- `span_text`: the exact substring of the source text covered by the span. -/
def spanText (src : String) (span : Span) : String :=
  String.mk ((src.data.drop span.lo).take (span.hi - span.lo))

/-- Models `deno_ast::swc::ast::PropName`.  `num` and `bigInt` carry the host
formatted decimal text of the literal value (the result of
`num.value.to_string()`); `computed` carries the span of the whole
`ComputedPropName` node — in swc that span includes the enclosing `[` and
`]` — together with the source text of the inner key expression (which the
conversion never reads). -/
inductive PropName where
  | ident (sym : String)
  | str (value : String)
  | num (valueText : String)
  | bigInt (valueText : String)
  | computed (span : Span) (exprText : String)
deriving Repr, DecidableEq

/-- Models `swc::ast::BindingIdent`: the identifier symbol, its optional flag
(`ident.id.sym`, `ident.id.optional`) and its type annotation. -/
structure BindingIdent where
  sym : String
  optional : Bool
  typeAnn : Option String
deriving Repr, DecidableEq

mutual
/-- Models `deno_ast::swc::ast::Pat` restricted to the fields params.rs reads.
The five supported kinds carry the payloads of `BindingIdent`, `ArrayPat`,
`RestPat`, `ObjectPat` and `AssignPat`; `invalid` and `expr` stand for the
remaining `Pat` variants (`Pat::Invalid`, `Pat::Expr`) that fall into the
`unreachable!()` arm. -/
inductive Pat where
  | ident (ident : BindingIdent)
  | array (elems : List (Option Pat)) (optional : Bool) (typeAnn : Option String)
  | rest (arg : Pat) (typeAnn : Option String)
  | object (props : List ObjectPatProp) (optional : Bool) (typeAnn : Option String)
  | assign (left : Pat) (right : String) (typeAnn : Option String)
  | invalid
  | expr (exprText : String)

/-- Models `swc::ast::ObjectPatProp`.  `assign` is the shorthand
`{ key = default }` property (the optional payload is the default expression
source text, of which only presence is ever used); `keyValue` is
`{ key: pattern }`; `rest` is `{ ...pattern }`. -/
inductive ObjectPatProp where
  | assign (key : String) (value : Option String)
  | keyValue (key : PropName) (value : Pat)
  | rest (arg : Pat)
end

/-- Models `swc::ast::TsFnParam`: the four legal top-level function-parameter
kinds, carrying the same payloads as the corresponding `Pat` variants. -/
inductive TsFnParam where
  | ident (ident : BindingIdent)
  | array (elems : List (Option Pat)) (optional : Bool) (typeAnn : Option String)
  | rest (arg : Pat) (typeAnn : Option String)
  | object (props : List ObjectPatProp) (optional : Bool) (typeAnn : Option String)

mutual
/-- Models the `ParamDef` enum of params.rs: the Parameter Descriptor tree.
`tsType` is the rendered text of the attached `TsTypeDef`, if any. -/
inductive ParamDef where
  | array (elements : List (Option ParamDef)) (optional : Bool) (tsType : Option String)
  | assign (left : ParamDef) (right : String) (tsType : Option String)
  | identifier (name : String) (optional : Bool) (tsType : Option String)
  | object (props : List ObjectPatPropDef) (optional : Bool) (tsType : Option String)
  | rest (arg : ParamDef) (tsType : Option String)

/-- Models the `ObjectPatPropDef` enum of params.rs. -/
inductive ObjectPatPropDef where
  | assign (key : String) (value : Option String)
  | keyValue (key : String) (value : ParamDef)
  | rest (arg : ParamDef)
end

/-- Modelled from the spec: `display_optional` lives in src/display.rs, which
is absent from the sources; section 4.2 of the spec states the optional marker
is the question mark iff `optional` holds, else nothing. -/
def display_optional (optional : Bool) : String :=
  if optional then "?" else ""

/-- The `: type` suffix every `Display` arm of `ParamDef` appends when a
`ts_type` is present (`write!(f, ": {}", ts_type)`), and omits when absent. -/
def tsTypeSuffix : Option String → String
  | some t => ": " ++ t
  | none => ""

mutual
/-- Models `impl Display for ParamDef` (the canonical renderer), arm by arm. -/
def paramDefToString : ParamDef → String
  | .array elements optional tsType =>
    "[" ++ arrayElemsToString elements ++ "]"
      ++ display_optional optional ++ tsTypeSuffix tsType
  | .assign left _right tsType =>
    -- the Rust arm ignores `right`: the default-value text is omitted
    paramDefToString left ++ tsTypeSuffix tsType
  | .identifier name optional tsType =>
    name ++ display_optional optional ++ tsTypeSuffix tsType
  | .object props optional tsType =>
    "\x7b" ++ objectPropsToString props ++ "\x7d"
      ++ display_optional optional ++ tsTypeSuffix tsType
  | .rest arg tsType =>
    "..." ++ paramDefToString arg ++ tsTypeSuffix tsType

/-- The Array arm body: first element (if present), then `, ` before every
later slot, an absent slot rendering as the empty string. -/
def arrayElemsToString : List (Option ParamDef) → String
  | [] => ""
  | first :: restElems => optElemToString first ++ arrayTailToString restElems

/-- One array slot: a present descriptor renders itself, a hole renders as
the empty string. -/
def optElemToString : Option ParamDef → String
  | some v => paramDefToString v
  | none => ""

/-- The loop over `&elements[1..]`: `, ` then the slot. -/
def arrayTailToString : List (Option ParamDef) → String
  | [] => ""
  | e :: restElems => ", " ++ optElemToString e ++ arrayTailToString restElems

/-- Modelled from the spec: `SliceDisplayer::new(props, ", ", false)` lives in
src/display.rs, which is absent from the sources; section 4.2 of the spec says
properties are joined by `, ` (the `false` argument meaning no trailing
separator). -/
def objectPropsToString : List ObjectPatPropDef → String
  | [] => ""
  | [p] => objectPatPropDefToString p
  | p :: restProps => objectPatPropDefToString p ++ ", " ++ objectPropsToString restProps

/-- Models `impl Display for ObjectPatPropDef`, arm by arm. -/
def objectPatPropDefToString : ObjectPatPropDef → String
  | .keyValue key _value => key
  | .assign key value =>
    -- the Rust arm tests `value` but writes just the key in both branches
    match value with
    | some _ => key
    | none => key
  | .rest arg => "..." ++ paramDefToString arg
end

/-- Models `prop_name_to_string`: canonical text for a property key, using the
source handle only for computed keys and falling back to the sentinel. -/
def prop_name_to_string (parsed_source : Option ParsedSource) (prop_name : PropName) : String :=
  match prop_name with
  | .ident sym => sym
  | .str value => value
  | .num valueText => valueText
  | .bigInt valueText => valueText
  | .computed span _ =>
    (parsed_source.map fun s => spanText s.source span).getD "<UNAVAILABLE>"

/-- Models `ts_type_ann_to_def` from ts_type.rs, an opaque collaborator of
this module (spec section 6): a type annotation is carried as its rendered
descriptor text, so the converter is the identity on that text. -/
def ts_type_ann_to_def (typeAnn : String) : String := typeAnn

/-- Models `ident_to_param_def`: a binding identifier becomes an `Identifier`
descriptor; the source handle is unused (`_parsed_source`). -/
def ident_to_param_def (_parsed_source : Option ParsedSource) (ident : BindingIdent) : ParamDef :=
  .identifier ident.sym ident.optional (ident.typeAnn.map ts_type_ann_to_def)

mutual
/-- Models `pat_to_param_def`.  A Rust panic (the `unreachable!()` of the
catch-all arm, reached for `Pat::Invalid` / `Pat::Expr`, possibly inside a
nested conversion) is modelled as `none`. -/
def pat_to_param_def (parsed_source : Option ParsedSource) : Pat → Option ParamDef
  | .ident ident => some (ident_to_param_def parsed_source ident)
  | .array elems optional typeAnn => array_pat_to_param_def parsed_source elems optional typeAnn
  | .rest arg typeAnn => rest_pat_to_param_def parsed_source arg typeAnn
  | .object props optional typeAnn => object_pat_to_param_def parsed_source props optional typeAnn
  | .assign left right typeAnn => assign_pat_to_param_def parsed_source left right typeAnn
  | .invalid => none
  | .expr _ => none

/-- Models `rest_pat_to_param_def`, applied to the fields of a `RestPat`. -/
def rest_pat_to_param_def (parsed_source : Option ParsedSource) (arg : Pat)
    (typeAnn : Option String) : Option ParamDef :=
  (pat_to_param_def parsed_source arg).map fun d =>
    .rest d (typeAnn.map ts_type_ann_to_def)

/-- Models `array_pat_to_param_def`, applied to the fields of an `ArrayPat`. -/
def array_pat_to_param_def (parsed_source : Option ParsedSource) (elems : List (Option Pat))
    (optional : Bool) (typeAnn : Option String) : Option ParamDef :=
  (arrayElemsConvert parsed_source elems).map fun es =>
    .array es optional (typeAnn.map ts_type_ann_to_def)

/-- The element loop of `array_pat_to_param_def`:
`elems.iter().map(|e| e.as_ref().map(|p| pat_to_param_def ...)).collect()`,
propagating a panic from any present slot. -/
def arrayElemsConvert (parsed_source : Option ParsedSource) :
    List (Option Pat) → Option (List (Option ParamDef))
  | [] => some []
  | none :: restElems =>
    (arrayElemsConvert parsed_source restElems).map fun ds => none :: ds
  | some p :: restElems =>
    match pat_to_param_def parsed_source p with
    | none => none
    | some d => (arrayElemsConvert parsed_source restElems).map fun ds => some d :: ds

/-- Models `object_pat_to_param_def`, applied to the fields of an `ObjectPat`. -/
def object_pat_to_param_def (parsed_source : Option ParsedSource) (props : List ObjectPatProp)
    (optional : Bool) (typeAnn : Option String) : Option ParamDef :=
  (objectPropsConvert parsed_source props).map fun ds =>
    .object ds optional (typeAnn.map ts_type_ann_to_def)

/-- The property loop of `object_pat_to_param_def`:
`props.iter().map(|prop| object_pat_prop_to_def ...).collect()`. -/
def objectPropsConvert (parsed_source : Option ParsedSource) :
    List ObjectPatProp → Option (List ObjectPatPropDef)
  | [] => some []
  | p :: restProps =>
    match object_pat_prop_to_def parsed_source p with
    | none => none
    | some d => (objectPropsConvert parsed_source restProps).map fun ds => d :: ds

/-- Models `object_pat_prop_to_def`, arm by arm.  The shorthand `Assign` arm
maps the default expression, when present, to the fixed `[UNSUPPORTED]`
sentinel without reading it. -/
def object_pat_prop_to_def (parsed_source : Option ParsedSource) :
    ObjectPatProp → Option ObjectPatPropDef
  | .assign key value => some (.assign key (value.map fun _ => "[UNSUPPORTED]"))
  | .keyValue key value =>
    (pat_to_param_def parsed_source value).map fun d =>
      .keyValue (prop_name_to_string parsed_source key) d
  | .rest arg =>
    (pat_to_param_def parsed_source arg).map fun d => .rest d

/-- Models `assign_pat_to_param_def`, applied to the fields of an `AssignPat`.
The default expression `_right` is never read; the descriptor stores the fixed
`[UNSUPPORTED]` sentinel. -/
def assign_pat_to_param_def (parsed_source : Option ParsedSource) (left : Pat)
    (_right : String) (typeAnn : Option String) : Option ParamDef :=
  (pat_to_param_def parsed_source left).map fun d =>
    .assign d "[UNSUPPORTED]" (typeAnn.map ts_type_ann_to_def)
end

/-- Models `ts_fn_param_to_param_def`: the four-way dispatch has no catch-all
arm, so it cannot itself panic; nested conversions still can. -/
def ts_fn_param_to_param_def (parsed_source : Option ParsedSource) :
    TsFnParam → Option ParamDef
  | .ident ident => some (ident_to_param_def parsed_source ident)
  | .array elems optional typeAnn => array_pat_to_param_def parsed_source elems optional typeAnn
  | .rest arg typeAnn => rest_pat_to_param_def parsed_source arg typeAnn
  | .object props optional typeAnn => object_pat_to_param_def parsed_source props optional typeAnn

/-- The top-level dispatch of `pat_to_param_def` takes a supported arm exactly
for these five kinds; `invalid` and `expr` fall into `unreachable!()`. -/
def patTopSupported : Pat → Bool
  | .ident _ => true
  | .array _ _ _ => true
  | .rest _ _ => true
  | .object _ _ _ => true
  | .assign _ _ _ => true
  | .invalid => false
  | .expr _ => false

mutual
/-- Every pattern node reachable by the converter (the node itself, array
slots, object property values, rest arguments, assignment targets) is of a
supported kind. -/
def patSupportedDeep : Pat → Bool
  | .ident _ => true
  | .array elems _ _ => optPatsSupported elems
  | .rest arg _ => patSupportedDeep arg
  | .object props _ _ => objectPropsSupported props
  | .assign left _ _ => patSupportedDeep left
  | .invalid => false
  | .expr _ => false

/-- All present slots of an array pattern are deeply supported. -/
def optPatsSupported : List (Option Pat) → Bool
  | [] => true
  | none :: restElems => optPatsSupported restElems
  | some p :: restElems => patSupportedDeep p && optPatsSupported restElems

/-- All properties of an object pattern are deeply supported. -/
def objectPropsSupported : List ObjectPatProp → Bool
  | [] => true
  | p :: restProps => objectPropSupported p && objectPropsSupported restProps

/-- The nested patterns of one object property are deeply supported. -/
def objectPropSupported : ObjectPatProp → Bool
  | .assign _ _ => true
  | .keyValue _ value => patSupportedDeep value
  | .rest arg => patSupportedDeep arg
end

/-- A function parameter all of whose nested patterns are deeply supported. -/
def tsFnParamSupportedDeep : TsFnParam → Bool
  | .ident _ => true
  | .array elems _ _ => optPatsSupported elems
  | .rest arg _ => patSupportedDeep arg
  | .object props _ _ => objectPropsSupported props

/-- Whether the root of a descriptor is the `Assign` variant. -/
def ParamDef.isAssignRoot : ParamDef → Bool
  | .array _ _ _ => false
  | .assign _ _ _ => true
  | .identifier _ _ _ => false
  | .object _ _ _ => false
  | .rest _ _ => false

mutual
/-- Deep support implies the converter returns a value (never reaches the
fatal branch). -/
theorem pat_supported_isSome (ps : Option ParsedSource) :
    ∀ p : Pat, patSupportedDeep p = true → (pat_to_param_def ps p).isSome = true
  | .ident _, _ => by simp [pat_to_param_def]
  | .array elems o t, h => by
    have he := optPats_supported_isSome ps elems (by simpa [patSupportedDeep] using h)
    obtain ⟨es, hes⟩ := Option.isSome_iff_exists.mp he
    simp [pat_to_param_def, array_pat_to_param_def, hes]
  | .rest arg t, h => by
    have ha := pat_supported_isSome ps arg (by simpa [patSupportedDeep] using h)
    obtain ⟨d, hd⟩ := Option.isSome_iff_exists.mp ha
    simp [pat_to_param_def, rest_pat_to_param_def, hd]
  | .object props o t, h => by
    have hp := objectProps_supported_isSome ps props (by simpa [patSupportedDeep] using h)
    obtain ⟨ds, hds⟩ := Option.isSome_iff_exists.mp hp
    simp [pat_to_param_def, object_pat_to_param_def, hds]
  | .assign left r t, h => by
    have hl := pat_supported_isSome ps left (by simpa [patSupportedDeep] using h)
    obtain ⟨d, hd⟩ := Option.isSome_iff_exists.mp hl
    simp [pat_to_param_def, assign_pat_to_param_def, hd]

/-- Deep support of all present slots implies the element loop succeeds. -/
theorem optPats_supported_isSome (ps : Option ParsedSource) :
    ∀ es : List (Option Pat), optPatsSupported es = true →
      (arrayElemsConvert ps es).isSome = true
  | [], _ => by simp [arrayElemsConvert]
  | none :: restElems, h => by
    have hr := optPats_supported_isSome ps restElems (by simpa [optPatsSupported] using h)
    obtain ⟨ds, hds⟩ := Option.isSome_iff_exists.mp hr
    simp [arrayElemsConvert, hds]
  | some p :: restElems, h => by
    rw [optPatsSupported, Bool.and_eq_true] at h
    have hp := pat_supported_isSome ps p h.1
    have hr := optPats_supported_isSome ps restElems h.2
    obtain ⟨d, hd⟩ := Option.isSome_iff_exists.mp hp
    obtain ⟨ds, hds⟩ := Option.isSome_iff_exists.mp hr
    simp [arrayElemsConvert, hd, hds]

/-- Deep support of all properties implies the property loop succeeds. -/
theorem objectProps_supported_isSome (ps : Option ParsedSource) :
    ∀ props : List ObjectPatProp, objectPropsSupported props = true →
      (objectPropsConvert ps props).isSome = true
  | [], _ => by simp [objectPropsConvert]
  | p :: restProps, h => by
    rw [objectPropsSupported, Bool.and_eq_true] at h
    have hp := objectProp_supported_isSome ps p h.1
    have hr := objectProps_supported_isSome ps restProps h.2
    obtain ⟨d, hd⟩ := Option.isSome_iff_exists.mp hp
    obtain ⟨ds, hds⟩ := Option.isSome_iff_exists.mp hr
    simp [objectPropsConvert, hd, hds]

/-- Deep support of one property implies its conversion succeeds. -/
theorem objectProp_supported_isSome (ps : Option ParsedSource) :
    ∀ prop : ObjectPatProp, objectPropSupported prop = true →
      (object_pat_prop_to_def ps prop).isSome = true
  | .assign _ _, _ => by simp [object_pat_prop_to_def]
  | .keyValue key value, h => by
    have hv := pat_supported_isSome ps value (by simpa [objectPropSupported] using h)
    obtain ⟨d, hd⟩ := Option.isSome_iff_exists.mp hv
    simp [object_pat_prop_to_def, hd]
  | .rest arg, h => by
    have ha := pat_supported_isSome ps arg (by simpa [objectPropSupported] using h)
    obtain ⟨d, hd⟩ := Option.isSome_iff_exists.mp ha
    simp [object_pat_prop_to_def, hd]
end

/-- The element loop returns one output slot per input slot. -/
theorem arrayElemsConvert_length (ps : Option ParsedSource) :
    ∀ (es : List (Option Pat)) (ds : List (Option ParamDef)),
      arrayElemsConvert ps es = some ds → ds.length = es.length
  | [], ds, h => by
    rw [arrayElemsConvert] at h
    simp only [Option.some.injEq] at h
    simp [← h]
  | none :: restElems, ds, h => by
    rw [arrayElemsConvert] at h
    obtain ⟨ds', hds', rfl⟩ := Option.map_eq_some'.mp h
    simp [arrayElemsConvert_length ps restElems ds' hds']
  | some p :: restElems, ds, h => by
    rw [arrayElemsConvert] at h
    cases hp : pat_to_param_def ps p with
    | none => rw [hp] at h; exact absurd h (by simp)
    | some d =>
      rw [hp] at h
      obtain ⟨ds', hds', rfl⟩ := Option.map_eq_some'.mp h
      simp [arrayElemsConvert_length ps restElems ds' hds']

/-- The element loop puts an absent slot in the output exactly where the
input has an elided slot. -/
theorem arrayElemsConvert_holes (ps : Option ParsedSource) :
    ∀ (es : List (Option Pat)) (ds : List (Option ParamDef)),
      arrayElemsConvert ps es = some ds →
      ∀ i : Nat, ds[i]?.map Option.isNone = es[i]?.map Option.isNone
  | [], ds, h, i => by
    rw [arrayElemsConvert] at h
    simp only [Option.some.injEq] at h
    simp [← h]
  | none :: restElems, ds, h, i => by
    rw [arrayElemsConvert] at h
    obtain ⟨ds', hds', rfl⟩ := Option.map_eq_some'.mp h
    cases i with
    | zero => simp
    | succ j => simpa using arrayElemsConvert_holes ps restElems ds' hds' j
  | some p :: restElems, ds, h, i => by
    rw [arrayElemsConvert] at h
    cases hp : pat_to_param_def ps p with
    | none => rw [hp] at h; exact absurd h (by simp)
    | some d =>
      rw [hp] at h
      obtain ⟨ds', hds', rfl⟩ := Option.map_eq_some'.mp h
      cases i with
      | zero => simp
      | succ j => simpa using arrayElemsConvert_holes ps restElems ds' hds' j

/-- The property loop converts elementwise in declaration order: the output at
every index is exactly the conversion of the input at that index. -/
theorem objectPropsConvert_get (ps : Option ParsedSource) :
    ∀ (props : List ObjectPatProp) (ds : List ObjectPatPropDef),
      objectPropsConvert ps props = some ds →
      ds.length = props.length
      ∧ ∀ i : Nat, (props[i]?).bind (object_pat_prop_to_def ps) = ds[i]?
  | [], ds, h => by
    rw [objectPropsConvert] at h
    simp only [Option.some.injEq] at h
    simp [← h]
  | p :: restProps, ds, h => by
    rw [objectPropsConvert] at h
    cases hp : object_pat_prop_to_def ps p with
    | none => rw [hp] at h; exact absurd h (by simp)
    | some d =>
      rw [hp] at h
      obtain ⟨ds', hds', rfl⟩ := Option.map_eq_some'.mp h
      obtain ⟨hlen, hget⟩ := objectPropsConvert_get ps restProps ds' hds'
      refine ⟨by simp [hlen], fun i => ?_⟩
      cases i with
      | zero => simp [hp]
      | succ j => simpa using hget j

/-- C1 counterexample: the claim says a key written `[1+1]` yields `1+1` and
not the bracketed form; but `prop_name_to_string` takes `span_text` of the
`ComputedPropName` node span, and in swc that span includes the enclosing
brackets, so over the source `[1+1]` (node span 0..5) it returns `[1+1]`,
which differs from `1+1`. -/
theorem claim_C1_counterexample :
    prop_name_to_string (some ⟨"[1+1]"⟩) (.computed ⟨0, 5⟩ "1+1") = "[1+1]"
    ∧ "[1+1]" ≠ "1+1" :=
  ⟨rfl, by decide⟩

/-- C1 (amended): for every computed property key, `prop_name_to_string`
returns the exact original source substring spanning the computed-key node —
which includes the enclosing brackets, so a key written `[1+1]` yields
`[1+1]`, not `1+1` and not a numeric evaluation — when a source handle is
supplied, and returns the fixed sentinel `<UNAVAILABLE>` when no handle is
supplied; being a total function, it never fails in either case. -/
theorem claim_C1_computed_key_source_text :
    (∀ (s : ParsedSource) (span : Span) (exprText : String),
      prop_name_to_string (some s) (.computed span exprText) = spanText s.source span)
    ∧ (∀ (span : Span) (exprText : String),
      prop_name_to_string none (.computed span exprText) = "<UNAVAILABLE>")
    ∧ prop_name_to_string (some ⟨"[1+1]"⟩) (.computed ⟨0, 5⟩ "1+1") = "[1+1]" :=
  ⟨fun _ _ _ => rfl, fun _ _ => rfl, rfl⟩

/-- C2: rendering an `Assign` descriptor produces exactly the rendering of its
target followed by the type suffix `: ` ++ type when a type is present and
nothing more when absent; the output is independent of the stored default text
(so no default-value expression text can appear because of it), and the
concrete parameter `x = compute()` renders as `x`. -/
theorem claim_C2_assign_rendering_omits_default :
    (∀ (left : ParamDef) (right : String) (t : Option String),
      paramDefToString (.assign left right t) = paramDefToString left ++ tsTypeSuffix t)
    ∧ (∀ ty : String, tsTypeSuffix (some ty) = ": " ++ ty)
    ∧ tsTypeSuffix none = ""
    ∧ (∀ (left : ParamDef) (r r' : String) (t : Option String),
      paramDefToString (.assign left r t) = paramDefToString (.assign left r' t))
    ∧ paramDefToString (.assign (.identifier "x" false none) "compute()" none) = "x" := by
  refine ⟨fun left right t => ?_, fun ty => rfl, rfl, fun left r r' t => ?_, ?_⟩
  · rw [paramDefToString]
  · rw [paramDefToString, paramDefToString]
  · simp [paramDefToString, display_optional, tsTypeSuffix]

/-- C3: `pat_to_param_def` on a node of any kind other than the five supported
kinds hits the fatal `unreachable!()` branch (modelled as `none`, a panic, not
an error value); under the precondition that every node handed to the
converter (here: the node and its nested pattern positions) is of a supported
kind, the fatal branch is never reached. -/
theorem claim_C3_unsupported_kind_is_fatal :
    ∀ (ps : Option ParsedSource) (p : Pat),
      (patTopSupported p = false → pat_to_param_def ps p = none)
      ∧ (patSupportedDeep p = true → (pat_to_param_def ps p).isSome = true) := by
  intro ps p
  refine ⟨fun h => ?_, pat_supported_isSome ps p⟩
  cases p with
  | invalid => rw [pat_to_param_def]
  | expr e => rw [pat_to_param_def]
  | ident i => simp [patTopSupported] at h
  | array elems o t => simp [patTopSupported] at h
  | rest arg t => simp [patTopSupported] at h
  | object props o t => simp [patTopSupported] at h
  | assign l r t => simp [patTopSupported] at h

/-- Witness for C3 at the concrete inputs `Pat.invalid` (unsupported, fatal)
and a plain identifier pattern (supported, not fatal). -/
theorem claim_C3_witness :
    pat_to_param_def none Pat.invalid = none
    ∧ (pat_to_param_def none (Pat.ident ⟨"x", false, none⟩)).isSome = true :=
  ⟨(claim_C3_unsupported_kind_is_fatal none Pat.invalid).1 rfl,
   (claim_C3_unsupported_kind_is_fatal none (Pat.ident ⟨"x", false, none⟩)).2
     (by simp [patSupportedDeep])⟩

/-- C4: for every finite pattern tree all of whose nodes are among the five
supported kinds, conversion returns a descriptor (never panics) and rendering
that descriptor is a total function producing a (necessarily finite) string. -/
theorem claim_C4_supported_conversion_then_render :
    ∀ (ps : Option ParsedSource) (p : Pat), patSupportedDeep p = true →
      ∃ d : ParamDef, pat_to_param_def ps p = some d
        ∧ ∃ s : String, paramDefToString d = s := by
  intro ps p h
  obtain ⟨d, hd⟩ := Option.isSome_iff_exists.mp (pat_supported_isSome ps p h)
  exact ⟨d, hd, paramDefToString d, rfl⟩

/-- Witness for C4 at the nested concrete pattern `{ a: [b, ...c] }`. -/
theorem claim_C4_witness :
    ∃ d : ParamDef,
      pat_to_param_def none
        (.object
          [.keyValue (.ident "a")
            (.array
              [some (.ident ⟨"b", false, none⟩),
               some (.rest (.ident ⟨"c", false, none⟩) none)]
              false none)]
          false none)
        = some d
      ∧ ∃ s : String, paramDefToString d = s :=
  claim_C4_supported_conversion_then_render none _
    (by simp [patSupportedDeep, objectPropsSupported, objectPropSupported,
      optPatsSupported])

/-- C5: `array_pat_to_param_def` produces an `Array` descriptor with exactly
one output slot per source slot and an absent slot exactly at each elided
position; the pattern `[ , b]` converts to an `Array` with a leading absent
element followed by `Identifier("b")` and renders as `[, b]`. -/
theorem claim_C5_array_slots_mirrored :
    (∀ (ps : Option ParsedSource) (elems : List (Option Pat)) (optional : Bool)
        (typeAnn : Option String),
      optPatsSupported elems = true →
      ∃ es : List (Option ParamDef),
        array_pat_to_param_def ps elems optional typeAnn
          = some (.array es optional (typeAnn.map ts_type_ann_to_def))
        ∧ es.length = elems.length
        ∧ ∀ i : Nat, es[i]?.map Option.isNone = elems[i]?.map Option.isNone)
    ∧ array_pat_to_param_def none [none, some (.ident ⟨"b", false, none⟩)] false none
        = some (.array [none, some (.identifier "b" false none)] false none)
    ∧ paramDefToString (.array [none, some (.identifier "b" false none)] false none)
        = "[, b]" := by
  refine ⟨fun ps elems optional typeAnn h => ?_, ?_, ?_⟩
  · obtain ⟨es, hes⟩ := Option.isSome_iff_exists.mp (optPats_supported_isSome ps elems h)
    exact ⟨es, by simp [array_pat_to_param_def, hes],
      arrayElemsConvert_length ps elems es hes,
      arrayElemsConvert_holes ps elems es hes⟩
  · simp [array_pat_to_param_def, arrayElemsConvert, pat_to_param_def,
      ident_to_param_def, ts_type_ann_to_def]
  · simp [paramDefToString, arrayElemsToString, arrayTailToString, optElemToString,
      display_optional, tsTypeSuffix]

/-- Witness for C5 at the concrete elided-slot pattern `[ , b]`. -/
theorem claim_C5_witness :
    ∃ es : List (Option ParamDef),
      array_pat_to_param_def none [none, some (.ident ⟨"b", false, none⟩)] false none
        = some (.array es false (Option.map ts_type_ann_to_def none))
      ∧ es.length = ([none, some (Pat.ident ⟨"b", false, none⟩)] : List (Option Pat)).length
      ∧ ∀ i : Nat, es[i]?.map Option.isNone
          = ([none, some (Pat.ident ⟨"b", false, none⟩)] : List (Option Pat))[i]?.map Option.isNone :=
  claim_C5_array_slots_mirrored.1 none [none, some (.ident ⟨"b", false, none⟩)] false none
    (by simp [optPatsSupported, patSupportedDeep])

/-- C6: `object_pat_to_param_def` produces an `Object` descriptor whose
properties are exactly the elementwise conversions of the source properties at
the same indices (declaration order preserved, any mix of kinds, duplicate
keys passed through unchanged, as the concrete mixed example with two `a` keys
shows). -/
theorem claim_C6_object_order_preserved :
    (∀ (ps : Option ParsedSource) (props : List ObjectPatProp) (optional : Bool)
        (typeAnn : Option String),
      objectPropsSupported props = true →
      ∃ ds : List ObjectPatPropDef,
        object_pat_to_param_def ps props optional typeAnn
          = some (.object ds optional (typeAnn.map ts_type_ann_to_def))
        ∧ ds.length = props.length
        ∧ ∀ i : Nat, (props[i]?).bind (object_pat_prop_to_def ps) = ds[i]?)
    ∧ objectPropsConvert none
        [.keyValue (.ident "a") (.ident ⟨"x", false, none⟩),
         .assign "a" (some "1"),
         .rest (.ident ⟨"r", false, none⟩)]
        = some [.keyValue "a" (.identifier "x" false none),
                .assign "a" (some "[UNSUPPORTED]"),
                .rest (.identifier "r" false none)] := by
  refine ⟨fun ps props optional typeAnn h => ?_, ?_⟩
  · obtain ⟨ds, hds⟩ := Option.isSome_iff_exists.mp (objectProps_supported_isSome ps props h)
    obtain ⟨hlen, hget⟩ := objectPropsConvert_get ps props ds hds
    exact ⟨ds, by simp [object_pat_to_param_def, hds], hlen, hget⟩
  · simp [objectPropsConvert, object_pat_prop_to_def, pat_to_param_def,
      ident_to_param_def, prop_name_to_string, ts_type_ann_to_def]

/-- Witness for C6 at a concrete mixed property list with a duplicate key. -/
theorem claim_C6_witness :
    ∃ ds : List ObjectPatPropDef,
      object_pat_to_param_def none
        [.keyValue (.ident "a") (.ident ⟨"x", false, none⟩),
         .assign "a" (some "1"),
         .rest (.ident ⟨"r", false, none⟩)]
        false none
        = some (.object ds false (Option.map ts_type_ann_to_def none))
      ∧ ds.length
          = ([.keyValue (.ident "a") (.ident ⟨"x", false, none⟩),
              .assign "a" (some "1"),
              .rest (.ident ⟨"r", false, none⟩)] : List ObjectPatProp).length
      ∧ ∀ i : Nat,
          (([.keyValue (.ident "a") (.ident ⟨"x", false, none⟩),
             .assign "a" (some "1"),
             .rest (.ident ⟨"r", false, none⟩)] : List ObjectPatProp)[i]?).bind
            (object_pat_prop_to_def none) = ds[i]? :=
  claim_C6_object_order_preserved.1 none
    [.keyValue (.ident "a") (.ident ⟨"x", false, none⟩),
     .assign "a" (some "1"),
     .rest (.ident ⟨"r", false, none⟩)]
    false none
    (by simp [objectPropsSupported, objectPropSupported, patSupportedDeep])

/-- C8: rendering a `KeyValue` property descriptor produces exactly its key
(the nested value contributes nothing), and rendering a shorthand `Assign`
property descriptor produces exactly its key whether or not a default is
present. -/
theorem claim_C8_property_renders_key_only :
    (∀ (key : String) (value : ParamDef),
      objectPatPropDefToString (.keyValue key value) = key)
    ∧ (∀ (key : String) (value : Option String),
      objectPatPropDefToString (.assign key value) = key) := by
  constructor
  · intro key value
    rw [objectPatPropDefToString]
  · intro key value
    cases value with
    | none => rw [objectPatPropDefToString]
    | some v => rw [objectPatPropDefToString]

/-- C9: the converter never reads default-value expressions.  For a top-level
default-assignment pattern, the produced descriptor is literally the converted
target wrapped with the fixed `[UNSUPPORTED]` sentinel, so two patterns that
differ only in the default expression convert identically; likewise a
shorthand object property records only the presence of its default as the
fixed sentinel, so its conversion is independent of the default expression. -/
theorem claim_C9_default_expression_independence :
    ∀ ps : Option ParsedSource,
      (∀ (left : Pat) (r r' : String) (t : Option String),
        assign_pat_to_param_def ps left r t = assign_pat_to_param_def ps left r' t)
      ∧ (∀ (left : Pat) (r : String) (t : Option String),
        assign_pat_to_param_def ps left r t
          = (pat_to_param_def ps left).map fun d =>
              .assign d "[UNSUPPORTED]" (t.map ts_type_ann_to_def))
      ∧ (∀ (key : String) (v v' : String),
        object_pat_prop_to_def ps (.assign key (some v))
          = object_pat_prop_to_def ps (.assign key (some v')))
      ∧ (∀ (key : String) (v : String),
        object_pat_prop_to_def ps (.assign key (some v))
          = some (.assign key (some "[UNSUPPORTED]"))) := by
  intro ps
  refine ⟨fun left r r' t => ?_, fun left r t => ?_, fun key v v' => ?_, fun key v => ?_⟩
  · rw [assign_pat_to_param_def, assign_pat_to_param_def]
  · rw [assign_pat_to_param_def]
  · simp [object_pat_prop_to_def]
  · simp [object_pat_prop_to_def]

/-- C10: `ts_fn_param_to_param_def` dispatches on exactly the four
function-parameter kinds with no fatal branch of its own (given supported
nested patterns it always returns a descriptor), and the root of any
descriptor it returns is never the `Assign` variant. -/
theorem claim_C10_ts_fn_param_total_never_assign_root :
    ∀ (ps : Option ParsedSource) (p : TsFnParam),
      (tsFnParamSupportedDeep p = true →
        (ts_fn_param_to_param_def ps p).isSome = true)
      ∧ (∀ d : ParamDef, ts_fn_param_to_param_def ps p = some d →
        d.isAssignRoot = false) := by
  intro ps p
  constructor
  · intro h
    cases p with
    | ident i => simp [ts_fn_param_to_param_def]
    | array elems o t =>
      rw [tsFnParamSupportedDeep] at h
      obtain ⟨es, hes⟩ := Option.isSome_iff_exists.mp (optPats_supported_isSome ps elems h)
      simp [ts_fn_param_to_param_def, array_pat_to_param_def, hes]
    | rest arg t =>
      rw [tsFnParamSupportedDeep] at h
      obtain ⟨d, hd⟩ := Option.isSome_iff_exists.mp (pat_supported_isSome ps arg h)
      simp [ts_fn_param_to_param_def, rest_pat_to_param_def, hd]
    | object props o t =>
      rw [tsFnParamSupportedDeep] at h
      obtain ⟨ds, hds⟩ := Option.isSome_iff_exists.mp (objectProps_supported_isSome ps props h)
      simp [ts_fn_param_to_param_def, object_pat_to_param_def, hds]
  · intro d hd
    cases p with
    | ident i =>
      rw [ts_fn_param_to_param_def] at hd
      obtain rfl : ident_to_param_def ps i = d := by simpa using hd
      rw [ident_to_param_def, ParamDef.isAssignRoot]
    | array elems o t =>
      rw [ts_fn_param_to_param_def, array_pat_to_param_def] at hd
      obtain ⟨es, _, rfl⟩ := Option.map_eq_some'.mp hd
      rw [ParamDef.isAssignRoot]
    | rest arg t =>
      rw [ts_fn_param_to_param_def, rest_pat_to_param_def] at hd
      obtain ⟨a, _, rfl⟩ := Option.map_eq_some'.mp hd
      rw [ParamDef.isAssignRoot]
    | object props o t =>
      rw [ts_fn_param_to_param_def, object_pat_to_param_def] at hd
      obtain ⟨ds, _, rfl⟩ := Option.map_eq_some'.mp hd
      rw [ParamDef.isAssignRoot]

/-- Witness for C10 at a concrete identifier parameter. -/
theorem claim_C10_witness :
    (ts_fn_param_to_param_def none (.ident ⟨"x", false, none⟩)).isSome = true
    ∧ ParamDef.isAssignRoot (.identifier "x" false none) = false :=
  ⟨(claim_C10_ts_fn_param_total_never_assign_root none (.ident ⟨"x", false, none⟩)).1
      (by rw [tsFnParamSupportedDeep]),
   (claim_C10_ts_fn_param_total_never_assign_root none (.ident ⟨"x", false, none⟩)).2
      (.identifier "x" false none)
      (by simp [ts_fn_param_to_param_def, ident_to_param_def, ts_type_ann_to_def])⟩

/-- The tagged-union document form (the value space of the serde output for
`#[serde(tag = "kind")]` with camelCase renaming): a JSON-like document. -/
inductive Doc where
  | null
  | bool (b : Bool)
  | str (s : String)
  | arr (items : List Doc)
  | obj (fields : List (String × Doc))
deriving Repr

/-- Serialization of an `Option` string-valued field (`ts_type`, shorthand
`value`): an absent value serializes as `null`. -/
def optStrToDoc : Option String → Doc
  | none => .null
  | some s => .str s

/-- Deserialization of an `Option` string-valued field. -/
def optStrFromDoc : Doc → Option (Option String)
  | .null => some none
  | .str s => some (some s)
  | _ => none

mutual
/-- Serialization of `ParamDef` to its tagged-union document: the variant tag
in field `kind` (camelCase variant name), then the fields in declaration
order with camelCase names. -/
def paramDefToDoc : ParamDef → Doc
  | .array elements optional tsType =>
    .obj [("kind", .str "array"), ("elements", .arr (optElemsToDoc elements)),
          ("optional", .bool optional), ("tsType", optStrToDoc tsType)]
  | .assign left right tsType =>
    .obj [("kind", .str "assign"), ("left", paramDefToDoc left),
          ("right", .str right), ("tsType", optStrToDoc tsType)]
  | .identifier name optional tsType =>
    .obj [("kind", .str "identifier"), ("name", .str name),
          ("optional", .bool optional), ("tsType", optStrToDoc tsType)]
  | .object props optional tsType =>
    .obj [("kind", .str "object"), ("props", .arr (objectPropsToDoc props)),
          ("optional", .bool optional), ("tsType", optStrToDoc tsType)]
  | .rest arg tsType =>
    .obj [("kind", .str "rest"), ("arg", paramDefToDoc arg),
          ("tsType", optStrToDoc tsType)]

/-- Serialization of `Vec<Option<ParamDef>>`: a hole serializes as `null`. -/
def optElemsToDoc : List (Option ParamDef) → List Doc
  | [] => []
  | none :: restElems => Doc.null :: optElemsToDoc restElems
  | some d :: restElems => paramDefToDoc d :: optElemsToDoc restElems

/-- Serialization of `Vec<ObjectPatPropDef>`. -/
def objectPropsToDoc : List ObjectPatPropDef → List Doc
  | [] => []
  | p :: restProps => objectPatPropDefToDoc p :: objectPropsToDoc restProps

/-- Serialization of `ObjectPatPropDef` to its tagged-union document. -/
def objectPatPropDefToDoc : ObjectPatPropDef → Doc
  | .assign key value =>
    .obj [("kind", .str "assign"), ("key", .str key), ("value", optStrToDoc value)]
  | .keyValue key value =>
    .obj [("kind", .str "keyValue"), ("key", .str key), ("value", paramDefToDoc value)]
  | .rest arg =>
    .obj [("kind", .str "rest"), ("arg", paramDefToDoc arg)]
end

mutual
/-- Deserialization of `ParamDef` from a tagged-union document in the
canonical field order the serializer emits (the derived serde deserializer
accepts at least these documents); any document of another shape is
rejected. -/
def paramDefFromDoc : Doc → Option ParamDef
  | .obj [("kind", .str "array"), ("elements", .arr elementDocs),
          ("optional", .bool optional), ("tsType", t)] =>
    match optElemsFromDoc elementDocs, optStrFromDoc t with
    | some es, some ty => some (.array es optional ty)
    | _, _ => none
  | .obj [("kind", .str "assign"), ("left", l), ("right", .str right), ("tsType", t)] =>
    match paramDefFromDoc l, optStrFromDoc t with
    | some leftDef, some ty => some (.assign leftDef right ty)
    | _, _ => none
  | .obj [("kind", .str "identifier"), ("name", .str name),
          ("optional", .bool optional), ("tsType", t)] =>
    (optStrFromDoc t).map fun ty => .identifier name optional ty
  | .obj [("kind", .str "object"), ("props", .arr propDocs),
          ("optional", .bool optional), ("tsType", t)] =>
    match objectPropsFromDoc propDocs, optStrFromDoc t with
    | some ds, some ty => some (.object ds optional ty)
    | _, _ => none
  | .obj [("kind", .str "rest"), ("arg", a), ("tsType", t)] =>
    match paramDefFromDoc a, optStrFromDoc t with
    | some argDef, some ty => some (.rest argDef ty)
    | _, _ => none
  | _ => none

/-- Deserialization of `Vec<Option<ParamDef>>`: `null` is a hole; a present
element must be a (tagged) object document. -/
def optElemsFromDoc : List Doc → Option (List (Option ParamDef))
  | [] => some []
  | Doc.null :: restDocs =>
    (optElemsFromDoc restDocs).map fun es => none :: es
  | Doc.obj fields :: restDocs =>
    match paramDefFromDoc (.obj fields), optElemsFromDoc restDocs with
    | some e, some es => some (some e :: es)
    | _, _ => none
  | _ => none

/-- Deserialization of `Vec<ObjectPatPropDef>`. -/
def objectPropsFromDoc : List Doc → Option (List ObjectPatPropDef)
  | [] => some []
  | d :: restDocs =>
    match objectPatPropDefFromDoc d, objectPropsFromDoc restDocs with
    | some p, some ds => some (p :: ds)
    | _, _ => none

/-- Deserialization of `ObjectPatPropDef` from a tagged-union document. -/
def objectPatPropDefFromDoc : Doc → Option ObjectPatPropDef
  | .obj [("kind", .str "assign"), ("key", .str key), ("value", v)] =>
    (optStrFromDoc v).map fun value => .assign key value
  | .obj [("kind", .str "keyValue"), ("key", .str key), ("value", v)] =>
    (paramDefFromDoc v).map fun value => .keyValue key value
  | .obj [("kind", .str "rest"), ("arg", a)] =>
    (paramDefFromDoc a).map fun arg => .rest arg
  | _ => none
end

/-- An optional string field survives the document round trip. -/
theorem optStr_roundtrip : ∀ t : Option String, optStrFromDoc (optStrToDoc t) = some t
  | none => rfl
  | some _ => rfl

/-- Every serialized descriptor is an object document. -/
theorem paramDefToDoc_isObj : ∀ d : ParamDef, ∃ fields, paramDefToDoc d = .obj fields
  | .array _ _ _ => ⟨_, by rw [paramDefToDoc]⟩
  | .assign _ _ _ => ⟨_, by rw [paramDefToDoc]⟩
  | .identifier _ _ _ => ⟨_, by rw [paramDefToDoc]⟩
  | .object _ _ _ => ⟨_, by rw [paramDefToDoc]⟩
  | .rest _ _ => ⟨_, by rw [paramDefToDoc]⟩

set_option maxHeartbeats 2000000 in
mutual
/-- Serializing a descriptor and deserializing it back yields the same
descriptor. -/
theorem paramDef_roundtrip : ∀ d : ParamDef, paramDefFromDoc (paramDefToDoc d) = some d
  | .array elements optional tsType => by
    rw [paramDefToDoc]
    simp only [paramDefFromDoc, optElems_roundtrip elements, optStr_roundtrip tsType]
  | .assign left right tsType => by
    rw [paramDefToDoc]
    obtain ⟨fields, hf⟩ := paramDefToDoc_isObj left
    rw [hf]
    simp only [paramDefFromDoc]
    rw [← hf, paramDef_roundtrip left]
    simp only [optStr_roundtrip tsType]
  | .identifier name optional tsType => by
    rw [paramDefToDoc]
    simp only [paramDefFromDoc, optStr_roundtrip tsType, Option.map_some']
  | .object props optional tsType => by
    rw [paramDefToDoc]
    simp only [paramDefFromDoc, objectProps_roundtrip props, optStr_roundtrip tsType]
  | .rest arg tsType => by
    rw [paramDefToDoc]
    obtain ⟨fields, hf⟩ := paramDefToDoc_isObj arg
    rw [hf]
    simp only [paramDefFromDoc]
    rw [← hf, paramDef_roundtrip arg]
    simp only [optStr_roundtrip tsType]

/-- The element list of an `Array` descriptor survives the round trip,
holes included. -/
theorem optElems_roundtrip :
    ∀ es : List (Option ParamDef), optElemsFromDoc (optElemsToDoc es) = some es
  | [] => by rw [optElemsToDoc, optElemsFromDoc]
  | none :: restElems => by
    rw [optElemsToDoc, optElemsFromDoc, optElems_roundtrip restElems, Option.map_some']
  | some d :: restElems => by
    rw [optElemsToDoc]
    obtain ⟨fields, hf⟩ := paramDefToDoc_isObj d
    rw [hf, optElemsFromDoc, ← hf, paramDef_roundtrip d, optElems_roundtrip restElems]

/-- The property list of an `Object` descriptor survives the round trip. -/
theorem objectProps_roundtrip :
    ∀ props : List ObjectPatPropDef, objectPropsFromDoc (objectPropsToDoc props) = some props
  | [] => by rw [objectPropsToDoc, objectPropsFromDoc]
  | p :: restProps => by
    rw [objectPropsToDoc, objectPropsFromDoc, objectPatPropDef_roundtrip p,
      objectProps_roundtrip restProps]

/-- A property descriptor survives the round trip. -/
theorem objectPatPropDef_roundtrip :
    ∀ p : ObjectPatPropDef, objectPatPropDefFromDoc (objectPatPropDefToDoc p) = some p
  | .assign key value => by
    rw [objectPatPropDefToDoc]
    simp only [objectPatPropDefFromDoc, optStr_roundtrip value, Option.map_some']
  | .keyValue key value => by
    rw [objectPatPropDefToDoc]
    obtain ⟨fields, hf⟩ := paramDefToDoc_isObj value
    rw [hf]
    simp only [objectPatPropDefFromDoc]
    rw [← hf, paramDef_roundtrip value, Option.map_some']
  | .rest arg => by
    rw [objectPatPropDefToDoc]
    obtain ⟨fields, hf⟩ := paramDefToDoc_isObj arg
    rw [hf]
    simp only [objectPatPropDefFromDoc]
    rw [← hf, paramDef_roundtrip arg, Option.map_some']
end

/-- C7: serializing a Parameter Descriptor tree to its tagged-union document
form (variant tag in field `kind`) and deserializing it back yields a tree
whose rendering is identical to the rendering of the original tree (here: the
very same tree, hence identical rendering). -/
theorem claim_C7_serde_roundtrip_renders_identically :
    ∀ d : ParamDef, ∃ d' : ParamDef,
      paramDefFromDoc (paramDefToDoc d) = some d'
      ∧ paramDefToString d' = paramDefToString d :=
  fun d => ⟨d, paramDef_roundtrip d, rfl⟩
